import Mathlib

/-!
Verification of the slint-node-editor library (Rust) against its
natural-language specification.

Shallow embedding conventions:
* `f32` values are modelled as exact rationals (`ℚ`); all arithmetic in the
  embedded code paths (add, sub, mul, div, abs, max, clamp, comparisons) is
  exact on the inputs the claims quantify over, so no rounding is modelled.
* `i32` ids are modelled as `Int`.
* `HashMap` fields are modelled as association lists keyed by id, with
  `List.lookup`; insertion replaces the entry for an existing key in place.
* Rust string formatting `format("{}", v)` of an `f32` is modelled by
  `fmtQ`, which renders integral values without a decimal point and values
  with a finite decimal expansion as their shortest exact decimal, exactly
  as Rust renders `f32` values that are short decimals.
* `distance_to_bezier` in the source returns `sqrt(min_dist_sq)` and
  `find_link_at` compares those square roots.  Square roots are not exact
  on `ℚ`, so the embedding keeps squared distances and uses the equivalent
  comparisons: for `d ≥ 0` and a previous best `b ≥ 0`,
  `sqrt d < sqrt b ↔ d < b`, and for the initial bound `h`,
  `sqrt d < h ↔ 0 < h ∧ d < h * h` (since `sqrt d ≥ 0`).
-/

/-- Rust `f32::EPSILON` (`2 ^ (-23)`) as an exact rational. -/
def f32EPSILON : ℚ := 1 / 2 ^ 23

/-- Rust `f32::MAX` (`(2 ^ 24 - 1) * 2 ^ 104`) as an exact rational. -/
def f32MAX : ℚ := (2 ^ 24 - 1) * 2 ^ 104

/-- Rust `clamp(x, lo, hi)`: `lo` if `x < lo`, `hi` if `x > hi`, else `x`. -/
def ratClamp (x lo hi : ℚ) : ℚ :=
  if x < lo then lo else if x > hi then hi else x

/-- Smallest exponent `k ≤ 63` with `den ∣ 10 ^ k`, if any. -/
def decExp (den : ℕ) : Option ℕ :=
  (List.range 64).find? (fun k => decide (den ∣ 10 ^ k))

/-- Model of Rust `format("{}", v)` for an `f32` value `v` held exactly as a
rational: integral values print with no decimal point, values with a finite
decimal expansion print as the shortest exact decimal (the minimal exponent
guarantees no trailing zero), other values fall back to `num/den` (no claim
evaluates `fmtQ` off the finite-decimal range). -/
def fmtQ (q : ℚ) : String :=
  if q.den = 1 then toString q.num
  else
    match decExp q.den with
    | some k =>
        let scaled : ℕ := q.num.natAbs * 10 ^ k / q.den
        let s := toString scaled
        let s := String.mk (List.replicate (k + 1 - s.length) '0') ++ s
        let sign := if q.num < 0 then "-" else ""
        sign ++ s.take (s.length - k) ++ "." ++ s.drop (s.length - k)
    | none => toString q.num ++ "/" ++ toString q.den

-- ============================================================
-- src/path.rs
-- ============================================================

/-- `path.rs::generate_bezier_path`: SVG path command for a bezier link. -/
def generate_bezier_path (start_x start_y end_x end_y zoom min_offset : ℚ) :
    String :=
  let dx := end_x - start_x
  let dy := end_y - start_y
  let dist_sq := dx * dx + dy * dy
  let threshold := 10 * zoom
  if dist_sq < threshold * threshold then
    "M " ++ fmtQ start_x ++ " " ++ fmtQ start_y ++ " L " ++
      fmtQ end_x ++ " " ++ fmtQ end_y
  else
    let dx_abs := |dx|
    let offset := max (dx_abs * (1/2)) (min_offset * zoom)
    let ctrl1_x := start_x + offset
    let ctrl1_y := start_y
    let ctrl2_x := end_x - offset
    let ctrl2_y := end_y
    "M " ++ fmtQ start_x ++ " " ++ fmtQ start_y ++ " C " ++
      fmtQ ctrl1_x ++ " " ++ fmtQ ctrl1_y ++ " " ++
      fmtQ ctrl2_x ++ " " ++ fmtQ ctrl2_y ++ " " ++
      fmtQ end_x ++ " " ++ fmtQ end_y

/-- `path.rs::lerp_point`: linear interpolation between two points. -/
def lerp_point (a b : ℚ × ℚ) (t : ℚ) : ℚ × ℚ :=
  (a.1 + (b.1 - a.1) * t, a.2 + (b.2 - a.2) * t)

/-- `path.rs::generate_partial_bezier_path`: sub-curve from parameter 0 to
`clamp(progress, 0, 1)` via de Casteljau subdivision. -/
def generate_partial_bezier_path
    (start_x start_y end_x end_y zoom min_offset progress : ℚ) : String :=
  let t := ratClamp progress 0 1
  if t ≤ 0 then
    "M " ++ fmtQ start_x ++ " " ++ fmtQ start_y ++ " L " ++
      fmtQ start_x ++ " " ++ fmtQ start_y
  else if t ≥ 1 then
    generate_bezier_path start_x start_y end_x end_y zoom min_offset
  else
    let dx_full := end_x - start_x
    let dy_full := end_y - start_y
    let dist_sq := dx_full * dx_full + dy_full * dy_full
    let threshold := 10 * zoom
    if dist_sq < threshold * threshold then
      let curr_x := start_x + dx_full * t
      let curr_y := start_y + dy_full * t
      "M " ++ fmtQ start_x ++ " " ++ fmtQ start_y ++ " L " ++
        fmtQ curr_x ++ " " ++ fmtQ curr_y
    else
      let dx_abs := |dx_full|
      let offset := max (dx_abs * (1/2)) (min_offset * zoom)
      let p0 := (start_x, start_y)
      let p1 := (start_x + offset, start_y)
      let p2 := (end_x - offset, end_y)
      let p3 := (end_x, end_y)
      let q0 := lerp_point p0 p1 t
      let q1 := lerp_point p1 p2 t
      let q2 := lerp_point p2 p3 t
      let r0 := lerp_point q0 q1 t
      let r1 := lerp_point q1 q2 t
      let s := lerp_point r0 r1 t
      "M " ++ fmtQ p0.1 ++ " " ++ fmtQ p0.2 ++ " C " ++
        fmtQ q0.1 ++ " " ++ fmtQ q0.2 ++ " " ++
        fmtQ r0.1 ++ " " ++ fmtQ r0.2 ++ " " ++
        fmtQ s.1 ++ " " ++ fmtQ s.2

/-- `path.rs::CubicBezier`: cubic bezier curve for distance calculations. -/
structure CubicBezier where
  p0 : ℚ × ℚ
  p1 : ℚ × ℚ
  p2 : ℚ × ℚ
  p3 : ℚ × ℚ
deriving DecidableEq, Repr

/-- `path.rs::CubicBezier::from_endpoints`. -/
def CubicBezier.from_endpoints
    (start_x start_y end_x end_y zoom min_offset : ℚ) : CubicBezier :=
  let dx := end_x - start_x
  let dy := end_y - start_y
  let dist_sq := dx * dx + dy * dy
  let threshold := 10 * zoom
  if dist_sq < threshold * threshold then
    { p0 := (start_x, start_y), p1 := (start_x, start_y),
      p2 := (end_x, end_y), p3 := (end_x, end_y) }
  else
    let dx_abs := |dx|
    let offset := max (dx_abs * (1/2)) (min_offset * zoom)
    { p0 := (start_x, start_y), p1 := (start_x + offset, start_y),
      p2 := (end_x - offset, end_y), p3 := (end_x, end_y) }

/-- `path.rs::CubicBezier::eval`: evaluate the curve at parameter `t`. -/
def CubicBezier.eval (c : CubicBezier) (t : ℚ) : ℚ × ℚ :=
  let t2 := t * t
  let t3 := t2 * t
  let mt := 1 - t
  let mt2 := mt * mt
  let mt3 := mt2 * mt
  (mt3 * c.p0.1 + 3 * mt2 * t * c.p1.1 + 3 * mt * t2 * c.p2.1 + t3 * c.p3.1,
   mt3 * c.p0.2 + 3 * mt2 * t * c.p1.2 + 3 * mt * t2 * c.p2.2 + t3 * c.p3.2)

/-- `path.rs::distance_to_line_segment_sq`: squared distance from a point to
a line segment. -/
def distance_to_line_segment_sq (point a b : ℚ × ℚ) : ℚ :=
  let ab := (b.1 - a.1, b.2 - a.2)
  let ap := (point.1 - a.1, point.2 - a.2)
  let ab_len_sq := ab.1 * ab.1 + ab.2 * ab.2
  if ab_len_sq < f32EPSILON then
    ap.1 * ap.1 + ap.2 * ap.2
  else
    let t := ratClamp ((ap.1 * ab.1 + ap.2 * ab.2) / ab_len_sq) 0 1
    let closest := (a.1 + t * ab.1, a.2 + t * ab.2)
    let dx := point.1 - closest.1
    let dy := point.2 - closest.2
    dx * dx + dy * dy

/-- `path.rs::distance_to_bezier`, kept in squared form: the source computes
this exact minimum of squared sample-segment distances and returns its
square root; the embedding returns the squared value (see file header). -/
def distance_to_bezier_sq (point : ℚ × ℚ) (bezier : CubicBezier)
    (num_samples : ℕ) : ℚ :=
  let n := if num_samples = 0 then 20 else num_samples
  let step := fun (acc : ℚ × (ℚ × ℚ)) (i : ℕ) =>
    let t : ℚ := (i + 1 : ℕ) / (n : ℚ)
    let curr_point := bezier.eval t
    let dist_sq := distance_to_line_segment_sq point acc.2 curr_point
    (if dist_sq < acc.1 then dist_sq else acc.1, curr_point)
  ((List.range n).foldl step (f32MAX, bezier.eval 0)).1

-- ============================================================
-- src/hit_test.rs
-- ============================================================

/-- `hit_test.rs::SimpleLinkGeometry`. -/
structure SimpleLinkGeometry where
  id : Int
  start_x : ℚ
  start_y : ℚ
  end_x : ℚ
  end_y : ℚ
deriving DecidableEq, Repr

/-- `hit_test.rs::SimplePinGeometry`. -/
structure SimplePinGeometry where
  id : Int
  x : ℚ
  y : ℚ
deriving DecidableEq, Repr

/-- `hit_test.rs::SimpleNodeGeometry`. -/
structure SimpleNodeGeometry where
  id : Int
  x : ℚ
  y : ℚ
  width : ℚ
  height : ℚ
deriving DecidableEq, Repr

/-- Squared sampled distance from the mouse to the bezier built from a link
(the body of the `find_link_at` loop before the comparison). -/
def linkDistSq (mouse_x mouse_y : ℚ) (link : SimpleLinkGeometry)
    (zoom bezier_min_offset : ℚ) (hit_samples : ℕ) : ℚ :=
  distance_to_bezier_sq (mouse_x, mouse_y)
    (CubicBezier.from_endpoints link.start_x link.start_y link.end_x
      link.end_y zoom bezier_min_offset) hit_samples

/-- Loop of `hit_test.rs::find_link_at`.  State is
`(closest_link_id, best)` where `best = none` means the best distance is
still the initial `hover_distance` bound and `best = some bSq` means the
current best is the square root of `bSq`; the comparisons encode the
source comparisons of square roots exactly (see file header). -/
def find_link_go (mouse_x mouse_y hover_distance zoom bezier_min_offset : ℚ)
    (hit_samples : ℕ) :
    List SimpleLinkGeometry → Int × Option ℚ → Int × Option ℚ
  | [], st => st
  | link :: rest, st =>
      let dSq := linkDistSq mouse_x mouse_y link zoom bezier_min_offset
        hit_samples
      let closer : Bool :=
        match st.2 with
        | none => decide (0 < hover_distance) && decide
            (dSq < hover_distance * hover_distance)
        | some bSq => decide (dSq < bSq)
      find_link_go mouse_x mouse_y hover_distance zoom bezier_min_offset
        hit_samples rest (if closer then (link.id, some dSq) else st)

/-- `hit_test.rs::find_link_at`: id of the closest link within
`hover_distance`, or `-1` if none. -/
def find_link_at (mouse_x mouse_y : ℚ) (links : List SimpleLinkGeometry)
    (hover_distance zoom bezier_min_offset : ℚ) (hit_samples : ℕ) : Int :=
  (find_link_go mouse_x mouse_y hover_distance zoom bezier_min_offset
    hit_samples links (-1, none)).1

/-- The candidate test of `hit_test.rs::find_pin_at`: squared distance from
the mouse to the pin is at most the squared hit radius. -/
def pin_within (mouse_x mouse_y hit_radius : ℚ)
    (pin : SimplePinGeometry) : Bool :=
  let dx := mouse_x - pin.x
  let dy := mouse_y - pin.y
  decide (dx * dx + dy * dy ≤ hit_radius * hit_radius)

/-- `hit_test.rs::find_pin_at`: id of the first pin within `hit_radius` in
iteration order, or `0` if none. -/
def find_pin_at (mouse_x mouse_y : ℚ) (pins : List SimplePinGeometry)
    (hit_radius : ℚ) : Int :=
  match pins with
  | [] => 0
  | pin :: rest =>
      if pin_within mouse_x mouse_y hit_radius pin then pin.id
      else find_pin_at mouse_x mouse_y rest hit_radius

/-- The filter predicate of `hit_test.rs::nodes_in_selection_box`
(strict AABB overlap). -/
def node_hits_box (sel_x sel_y sel_width sel_height : ℚ)
    (node : SimpleNodeGeometry) : Bool :=
  decide (node.x < sel_x + sel_width) &&
  decide (node.x + node.width > sel_x) &&
  decide (node.y < sel_y + sel_height) &&
  decide (node.y + node.height > sel_y)

/-- `hit_test.rs::nodes_in_selection_box`. -/
def nodes_in_selection_box (sel_x sel_y sel_width sel_height : ℚ)
    (nodes : List SimpleNodeGeometry) : List Int :=
  (nodes.filter (node_hits_box sel_x sel_y sel_width sel_height)).map
    (fun n => n.id)

/-- The filter predicate of `hit_test.rs::links_in_selection_box`
(closed-interval containment of either endpoint). -/
def link_hits_box (sel_x sel_y sel_width sel_height : ℚ)
    (link : SimpleLinkGeometry) : Bool :=
  let start_in_box :=
    decide (link.start_x ≥ sel_x) && decide (link.start_x ≤ sel_x + sel_width)
    && decide (link.start_y ≥ sel_y) &&
    decide (link.start_y ≤ sel_y + sel_height)
  let end_in_box :=
    decide (link.end_x ≥ sel_x) && decide (link.end_x ≤ sel_x + sel_width)
    && decide (link.end_y ≥ sel_y) && decide (link.end_y ≤ sel_y + sel_height)
  start_in_box || end_in_box

/-- `hit_test.rs::links_in_selection_box`. -/
def links_in_selection_box (sel_x sel_y sel_width sel_height : ℚ)
    (links : List SimpleLinkGeometry) : List Int :=
  (links.filter (link_hits_box sel_x sel_y sel_width sel_height)).map
    (fun l => l.id)

-- ============================================================
-- src/state.rs
-- ============================================================

/-- `state.rs::StoredPin`. -/
structure StoredPin where
  node_id : Int
  pin_type : Int
  rel_x : ℚ
  rel_y : ℚ
deriving DecidableEq, Repr

/-- `state.rs::GeometryCache` (instantiated at the default
`SimpleNodeGeometry`); the two `HashMap` fields are association lists. -/
structure GeometryCache where
  node_rects : List (Int × SimpleNodeGeometry)
  pin_positions : List (Int × StoredPin)
deriving DecidableEq, Repr

/-- Replace-or-append update of an association list, modelling
`HashMap::insert`. -/
def upsert {α : Type} (l : List (Int × α)) (k : Int) (v : α) :
    List (Int × α) :=
  match l with
  | [] => [(k, v)]
  | (k', v') :: rest =>
      if k' = k then (k, v) :: rest else (k', v') :: upsert rest k v

/-- `state.rs::GeometryCache::compute_link_path`. -/
def GeometryCache.compute_link_path (cache : GeometryCache)
    (start_pin end_pin : Int) (zoom bezier_min_offset : ℚ) :
    Option String :=
  match cache.pin_positions.lookup start_pin,
      cache.pin_positions.lookup end_pin with
  | some start_pos, some end_pos =>
      match cache.node_rects.lookup start_pos.node_id,
          cache.node_rects.lookup end_pos.node_id with
      | some start_rect, some end_rect =>
          some (generate_bezier_path
            (start_rect.x + start_pos.rel_x)
            (start_rect.y + start_pos.rel_y)
            (end_rect.x + end_pos.rel_x)
            (end_rect.y + end_pos.rel_y)
            zoom bezier_min_offset)
      | _, _ => none
  | _, _ => none

/-- `state.rs::GeometryCache::compute_link_path_screen`. -/
def GeometryCache.compute_link_path_screen (cache : GeometryCache)
    (start_pin end_pin : Int) (zoom pan_x pan_y bezier_min_offset : ℚ) :
    Option String :=
  match cache.pin_positions.lookup start_pin,
      cache.pin_positions.lookup end_pin with
  | some start_pos, some end_pos =>
      match cache.node_rects.lookup start_pos.node_id,
          cache.node_rects.lookup end_pos.node_id with
      | some start_rect, some end_rect =>
          let sx := (start_rect.x + start_pos.rel_x) * zoom + pan_x
          let sy := (start_rect.y + start_pos.rel_y) * zoom + pan_y
          let ex := (end_rect.x + end_pos.rel_x) * zoom + pan_x
          let ey := (end_rect.y + end_pos.rel_y) * zoom + pan_y
          some (generate_bezier_path sx sy ex ey zoom bezier_min_offset)
      | _, _ => none
  | _, _ => none

/-- `state.rs::GeometryCache::handle_pin_report`. -/
def GeometryCache.handle_pin_report (cache : GeometryCache)
    (pin_id node_id pin_type : Int) (rel_x rel_y : ℚ) : GeometryCache :=
  let pin : StoredPin :=
    { node_id := node_id, pin_type := pin_type, rel_x := rel_x, rel_y := rel_y }
  { cache with pin_positions := upsert cache.pin_positions pin_id pin }

/-- `state.rs::GeometryCache::update_node_rect` (also the body of
`handle_node_rect_report`). -/
def GeometryCache.update_node_rect (cache : GeometryCache)
    (id : Int) (x y width height : ℚ) : GeometryCache :=
  let node : SimpleNodeGeometry :=
    { id := id, x := x, y := y, width := width, height := height }
  { cache with node_rects := upsert cache.node_rects id node }

-- ============================================================
-- src/selection.rs
-- ============================================================

/-- `selection.rs::SelectionManager::handle_interaction`; the `HashSet`
field is a `Finset ℤ`. -/
def handle_interaction (selected : Finset ℤ) (id : ℤ)
    (shift_held : Bool) : Finset ℤ :=
  if shift_held then
    if id ∈ selected then selected.erase id else insert id selected
  else
    if selected.card = 1 ∧ id ∈ selected then selected
    else insert id (∅ : Finset ℤ)

-- ============================================================
-- src/graph.rs
-- ============================================================

/-- `graph.rs::ValidationError`. -/
inductive ValidationError where
  | PinNotFound (id : Int)
  | SamePin
  | SameNode
  | IncompatibleDirection
  | DuplicateLink
  | MaxConnectionsReached (pin_id : Int) (maxConn : ℕ)
  | TypeMismatch (expected found : Int)
  | Custom (msg : String)
deriving DecidableEq, Repr

/-- `graph.rs::ValidationResult`. -/
inductive ValidationResult where
  | Valid
  | Invalid (e : ValidationError)
deriving DecidableEq, Repr

/-- `graph.rs::ValidationResult::is_valid`. -/
def ValidationResult.is_valid : ValidationResult → Bool
  | .Valid => true
  | .Invalid _ => false

/-- A record implementing the `graph.rs::LinkModel` trait. -/
structure LinkRec where
  id : Int
  start_pin_id : Int
  end_pin_id : Int
deriving DecidableEq, Repr

/-- `graph.rs::GraphLogic::duplicate_link_exists`. -/
def duplicate_link_exists (start_pin end_pin : Int)
    (links : List LinkRec) : Bool :=
  links.any fun link =>
    decide (link.start_pin_id = start_pin) &&
    decide (link.end_pin_id = end_pin)

/-- `graph.rs::GraphLogic::normalize_link_direction`. -/
def normalize_link_direction (pin_a pin_b : Int) (cache : GeometryCache)
    (output_type : Int) : Option (Int × Int) :=
  match cache.pin_positions.lookup pin_a with
  | none => none
  | some pos_a =>
      if pos_a.pin_type = output_type then some (pin_a, pin_b)
      else some (pin_b, pin_a)

/-- The type of the `graph.rs::LinkValidator::validate` method. -/
def Validator : Type :=
  Int → Int → GeometryCache → List LinkRec → ValidationResult

/-- `graph.rs::BasicLinkValidator::validate` (with `output_type` as the
validator field). -/
def basic_validate (output_type : Int) : Validator :=
  fun start_pin end_pin cache _links =>
    if start_pin = end_pin then .Invalid .SamePin
    else
      match cache.pin_positions.lookup start_pin with
      | none => .Invalid (.PinNotFound start_pin)
      | some start_pos =>
          match cache.pin_positions.lookup end_pin with
          | none => .Invalid (.PinNotFound end_pin)
          | some end_pos =>
              if start_pos.node_id = end_pos.node_id then .Invalid .SameNode
              else
                let start_is_output :=
                  decide (start_pos.pin_type = output_type)
                let end_is_output := decide (end_pos.pin_type = output_type)
                if start_is_output = end_is_output then
                  .Invalid .IncompatibleDirection
                else .Valid

/-- `graph.rs::NoDuplicatesValidator::validate`. -/
def no_duplicates_validate : Validator :=
  fun start_pin end_pin _cache links =>
    if duplicate_link_exists start_pin end_pin links then
      .Invalid .DuplicateLink
    else .Valid

/-- `graph.rs::CompositeValidator::validate`: run validators in order,
returning the first invalid result. -/
def composite_validate (validators : List Validator) : Validator :=
  fun start_pin end_pin cache links =>
    match validators with
    | [] => .Valid
    | v :: rest =>
        let result := v start_pin end_pin cache links
        if result.is_valid then
          composite_validate rest start_pin end_pin cache links
        else result

-- ============================================================
-- src/controller.rs
-- ============================================================

/-- `controller.rs::ViewportState` (the geometry cache is kept separate, as
in the source; `links` is the registered-links map keyed by link id). -/
structure ViewportState where
  zoom : ℚ
  pan_x : ℚ
  pan_y : ℚ
  bezier_offset : ℚ
  dragged_node_id : Int
  grid_spacing : ℚ
  links : List (Int × Int × Int)
deriving DecidableEq, Repr

/-- `controller.rs::ViewportState::safe_zoom`. -/
def ViewportState.safe_zoom (s : ViewportState) : ℚ :=
  if s.zoom > 0 then s.zoom else 1

/-- `controller.rs::NodeEditorController::handle_node_rect`: screen→world
conversion of the reported rect, then cache update. -/
def ctrl_handle_node_rect (s : ViewportState) (cache : GeometryCache)
    (id : Int) (x y w h : ℚ) : GeometryCache :=
  let z := s.safe_zoom
  let world_x := (x - s.pan_x) / z
  let world_y := (y - s.pan_y) / z
  let world_w := w / z
  let world_h := h / z
  cache.update_node_rect id world_x world_y world_w world_h

/-- World→screen conversion of the registered links, the `filter_map` of
`controller.rs::find_link_at_screen`. -/
def ctrl_link_geometries (s : ViewportState) (cache : GeometryCache)
    (zoom pan_x pan_y : ℚ) : List SimpleLinkGeometry :=
  s.links.filterMap fun entry =>
    match cache.pin_positions.lookup entry.2.1,
        cache.pin_positions.lookup entry.2.2 with
    | some start_pos, some end_pos =>
        match cache.node_rects.lookup start_pos.node_id,
            cache.node_rects.lookup end_pos.node_id with
        | some start_rect, some end_rect =>
            let g : SimpleLinkGeometry :=
              { id := entry.1,
                start_x := (start_rect.x + start_pos.rel_x) * zoom + pan_x,
                start_y := (start_rect.y + start_pos.rel_y) * zoom + pan_y,
                end_x := (end_rect.x + end_pos.rel_x) * zoom + pan_x,
                end_y := (end_rect.y + end_pos.rel_y) * zoom + pan_y }
            some g
        | _, _ => none
    | _, _ => none

/-- `controller.rs::NodeEditorController::find_link_at_screen`. -/
def ctrl_find_link_at_screen (s : ViewportState) (cache : GeometryCache)
    (mouse_x mouse_y hover_distance bezier_min_offset : ℚ)
    (hit_samples : ℕ) : Int :=
  let zoom := s.safe_zoom
  find_link_at mouse_x mouse_y
    (ctrl_link_geometries s cache zoom s.pan_x s.pan_y)
    hover_distance zoom bezier_min_offset hit_samples

/-- `controller.rs::NodeEditorController::find_pin_at_screen`. -/
def ctrl_find_pin_at_screen (s : ViewportState) (cache : GeometryCache)
    (mouse_x mouse_y hit_radius : ℚ) : Int :=
  let zoom := s.safe_zoom
  let pins := cache.pin_positions.filterMap fun entry =>
    match cache.node_rects.lookup entry.2.node_id with
    | some rect =>
        let p : SimplePinGeometry :=
          { id := entry.1,
            x := (rect.x + entry.2.rel_x) * zoom + s.pan_x,
            y := (rect.y + entry.2.rel_y) * zoom + s.pan_y }
        some p
    | none => none
  find_pin_at mouse_x mouse_y pins hit_radius

/-- `controller.rs::NodeEditorController::nodes_in_selection_box_screen`. -/
def ctrl_nodes_in_selection_box_screen (s : ViewportState)
    (cache : GeometryCache) (sx sy sw sh : ℚ) : List Int :=
  let z := s.safe_zoom
  let world_x := (sx - s.pan_x) / z
  let world_y := (sy - s.pan_y) / z
  let world_w := sw / z
  let world_h := sh / z
  nodes_in_selection_box world_x world_y world_w world_h
    (cache.node_rects.map fun entry => entry.2)

/-- `controller.rs::NodeEditorController::links_in_selection_box_screen`
(world-space link endpoints: node rect plus pin offset). -/
def ctrl_links_in_selection_box_screen (s : ViewportState)
    (cache : GeometryCache) (sx sy sw sh : ℚ) : List Int :=
  let z := s.safe_zoom
  let world_x := (sx - s.pan_x) / z
  let world_y := (sy - s.pan_y) / z
  let world_w := sw / z
  let world_h := sh / z
  links_in_selection_box world_x world_y world_w world_h
    (ctrl_link_geometries s cache 1 0 0)

/-- `controller.rs::NodeEditorController::compute_link_path`: delegates to
`compute_link_path_screen` with the raw `zoom` field (not `safe_zoom`),
mapping a `None` result to the empty string (`unwrap_or_default`). -/
def ctrl_compute_link_path (s : ViewportState) (cache : GeometryCache)
    (start_pin end_pin : Int) : String :=
  (cache.compute_link_path_screen start_pin end_pin s.zoom s.pan_x s.pan_y
    s.bezier_offset).getD ""

-- ============================================================
-- Shared concrete data (the end-to-end scenario of the spec)
-- ============================================================

/-- The two-node scenario: node 1 at world `(0,0,100,50)`, node 2 at
`(200,100,100,50)`, pin 1001 (output, node 1, offset `(100,25)`), pin 2001
(input, node 2, offset `(0,25)`). -/
def specCache : GeometryCache :=
  { node_rects := [(1, ⟨1, 0, 0, 100, 50⟩), (2, ⟨2, 200, 100, 100, 50⟩)],
    pin_positions := [(1001, ⟨1, 2, 100, 25⟩), (2001, ⟨2, 1, 0, 25⟩)] }

/-- A viewport with non-positive zoom `-1` and no pan. -/
def viewportNeg : ViewportState := ⟨-1, 0, 0, 50, 0, 24, []⟩

/-- The same viewport with zoom `1`. -/
def viewportOne : ViewportState := ⟨1, 0, 0, 50, 0, 24, []⟩

-- ============================================================
-- Claim theorems
-- ============================================================

/-- C2: on the scenario cache (node 1 at `(0,0,100,50)` with output pin 1001
at offset `(100,25)`, node 2 at `(200,100,100,50)` with input pin 2001 at
offset `(0,25)`), `compute_link_path(1001, 2001, 1.0, 50.0)` returns a path
string that begins with `M 100 25 C` and ends with `200 125`. -/
theorem C2_compute_link_path_scenario :
    ∃ s, specCache.compute_link_path 1001 2001 1 50 = some s ∧
      (∃ suffix, s = "M 100 25 C" ++ suffix) ∧
      (∃ front, s = front ++ "200 125") := by
  refine ⟨"M 100 25 C 150 25 150 125 200 125", ?_,
    ⟨" 150 25 150 125 200 125", by decide⟩,
    ⟨"M 100 25 C 150 25 150 125 ", by decide⟩⟩
  show some (generate_bezier_path (0 + 100) (0 + 25) (200 + 0) (100 + 25)
    1 50) = _
  norm_num [generate_bezier_path, fmtQ]
  rfl

/-- C8: a composite validator runs its validators in order and returns the
first invalid result; in particular `[BasicLinkValidator,
NoDuplicatesValidator]` on a link whose start and end pin are the same id
returns `Invalid SamePin`, never `Invalid DuplicateLink`, for every cache
and every list of existing links. -/
theorem C8_composite_validator_short_circuit :
    ∀ (output_type : Int) (cache : GeometryCache) (links : List LinkRec)
      (p sp ep : Int) (v : Validator) (vs : List Validator),
      composite_validate [basic_validate output_type, no_duplicates_validate]
          p p cache links = .Invalid .SamePin ∧
      composite_validate (v :: vs) sp ep cache links =
        (if (v sp ep cache links).is_valid then
          composite_validate vs sp ep cache links
        else v sp ep cache links) := by
  intro output_type cache links p sp ep v vs
  constructor
  · simp [composite_validate, basic_validate, ValidationResult.is_valid]
  · rfl

/-- C9: `normalize_link_direction(pin_a, pin_b, cache, output_type)` returns
`None` exactly when `pin_a` is absent from the pin map; when `pin_a` is
present it returns `Some (pin_a, pin_b)` if the stored `pin_type` of `pin_a`
equals `output_type` and `Some (pin_b, pin_a)` otherwise, based solely on
the type of `pin_a` (the cache, hence whether `pin_b` exists or what type it
has, is universally quantified). -/
theorem C9_normalize_link_direction_spec :
    ∀ (pin_a pin_b output_type : Int) (cache : GeometryCache),
      (normalize_link_direction pin_a pin_b cache output_type = none ↔
        cache.pin_positions.lookup pin_a = none) ∧
      (∀ pos_a, cache.pin_positions.lookup pin_a = some pos_a →
        normalize_link_direction pin_a pin_b cache output_type =
          (if pos_a.pin_type = output_type then some (pin_a, pin_b)
           else some (pin_b, pin_a))) := by
  intro pin_a pin_b output_type cache
  constructor
  · unfold normalize_link_direction
    cases h : cache.pin_positions.lookup pin_a with
    | none => simp
    | some pos_a =>
        simp only [h]
        constructor
        · intro hcontr
          by_cases ht : pos_a.pin_type = output_type <;> simp [ht] at hcontr
        · intro hcontr
          exact absurd hcontr (Option.some_ne_none _)
  · intro pos_a h
    unfold normalize_link_direction
    rw [h]

/-- C9 witness: on the scenario cache, pin 1001 is present with type 2, so
with `output_type = 2` the pair keeps its order, and the theorem applies. -/
theorem C9_normalize_link_direction_witness :
    specCache.pin_positions.lookup 1001 = some ⟨1, 2, 100, 25⟩ ∧
    normalize_link_direction 1001 2001 specCache 2 = some (1001, 2001) := by
  have h : specCache.pin_positions.lookup 1001 = some ⟨1, 2, 100, 25⟩ := rfl
  refine ⟨h, ?_⟩
  have := (C9_normalize_link_direction_spec 1001 2001 2 specCache).2 _ h
  simpa using this

/-- C6: the selection toggle laws of `handle_interaction`: shift-toggling an
id twice starting from the empty selection returns to empty; a plain click
on `id` collapses any selection other than exactly `\x7bid\x7d` to exactly
`\x7bid\x7d`; and a plain click when the selection is exactly `\x7bid\x7d`
leaves it unchanged. -/
theorem C6_selection_toggle_laws (id : ℤ) (sel : Finset ℤ) :
    handle_interaction (handle_interaction ∅ id true) id true = ∅ ∧
    (sel ≠ {id} → handle_interaction sel id false = {id}) ∧
    handle_interaction {id} id false = {id} := by
  refine ⟨?_, ?_, ?_⟩
  · simp [handle_interaction]
  · intro hne
    have hcond : ¬ (sel.card = 1 ∧ id ∈ sel) := by
      rintro ⟨hcard, hmem⟩
      obtain ⟨a, ha⟩ := Finset.card_eq_one.mp hcard
      subst ha
      rw [Finset.mem_singleton] at hmem
      exact hne (by rw [hmem])
    simp [handle_interaction, hcond]
  · simp [handle_interaction]

/-- C6 witness: the theorem applied at `id = 5` and the selection `\x7b2\x7d`,
which is not `\x7b5\x7d`. -/
theorem C6_selection_toggle_witness :
    ({2} : Finset ℤ) ≠ {5} ∧ handle_interaction {2} 5 false = {5} := by
  have hne : ({2} : Finset ℤ) ≠ {5} := by
    intro h
    have : (2 : ℤ) ∈ ({5} : Finset ℤ) := h ▸ Finset.mem_singleton_self 2
    simp at this
  exact ⟨hne, (C6_selection_toggle_laws 5 {2}).2.1 hne⟩

/-- `find_pin_at` returns the id of the first pin satisfying `pin_within`,
and the sentinel `0` when none does. -/
theorem find_pin_at_characterization (mouse_x mouse_y hit_radius : ℚ) :
    ∀ pins : List SimplePinGeometry,
      (∀ q, pins.find? (pin_within mouse_x mouse_y hit_radius) = some q →
        find_pin_at mouse_x mouse_y pins hit_radius = q.id) ∧
      (pins.find? (pin_within mouse_x mouse_y hit_radius) = none →
        find_pin_at mouse_x mouse_y pins hit_radius = 0) := by
  intro pins
  induction pins with
  | nil => simp [find_pin_at]
  | cons p rest ih =>
      by_cases hp : pin_within mouse_x mouse_y hit_radius p
      · constructor
        · intro q hq
          rw [List.find?_cons_of_pos _ hp] at hq
          cases hq
          simp [find_pin_at, hp]
        · intro hq
          rw [List.find?_cons_of_pos _ hp] at hq
          cases hq
      · constructor
        · intro q hq
          rw [List.find?_cons_of_neg _ hp] at hq
          have := ih.1 q hq
          simpa [find_pin_at, hp] using this
        · intro hq
          rw [List.find?_cons_of_neg _ hp] at hq
          have := ih.2 hq
          simpa [find_pin_at, hp] using this

/-- C3: a pin located exactly at the query point is within every radius
`r ≥ 0`, so `find_pin_at` returns the id of the first pin within the
radius in iteration order; and with the query moved to `(px + r + ε, py)`
with `ε > 0`, the lone pin at `(px, py)` is missed and the no-hit sentinel
`0` is returned. -/
theorem C3_find_pin_at_containment
    (pins : List SimplePinGeometry) (p : SimplePinGeometry) (px py r : ℚ)
    (hmem : p ∈ pins) (hx : p.x = px) (hy : p.y = py) (hr : 0 ≤ r) :
    (∃ q, pins.find? (pin_within px py r) = some q ∧
      find_pin_at px py pins r = q.id) ∧
    (∀ ε : ℚ, 0 < ε → find_pin_at (px + r + ε) py [p] r = 0) := by
  constructor
  · have hp : pin_within px py r p = true := by
      simp only [pin_within, hx, hy, decide_eq_true_eq]
      have : px - px = 0 := by ring
      rw [this]
      have : py - py = 0 := by ring
      rw [this]
      nlinarith
    have hsome : (pins.find? (pin_within px py r)).isSome = true := by
      rw [List.find?_isSome]
      exact ⟨p, hmem, hp⟩
    obtain ⟨q, hq⟩ := Option.isSome_iff_exists.mp hsome
    exact ⟨q, hq, (find_pin_at_characterization px py r pins).1 q hq⟩
  · intro ε hε
    have hmiss : pin_within (px + r + ε) py r p = false := by
      simp only [pin_within, hx, hy, decide_eq_false_iff_not, not_le]
      have h1 : px + r + ε - px = r + ε := by ring
      have h2 : py - py = 0 := by ring
      rw [h1, h2]
      nlinarith
    simp [find_pin_at, hmiss]

/-- C3 witness: the theorem applied to the single pin with id 7 at `(3, 4)`
and radius 2. -/
theorem C3_find_pin_at_witness :
    (⟨7, 3, 4⟩ : SimplePinGeometry) ∈ [(⟨7, 3, 4⟩ : SimplePinGeometry)] ∧
    (0 : ℚ) ≤ 2 ∧
    ((∃ q, [(⟨7, 3, 4⟩ : SimplePinGeometry)].find? (pin_within 3 4 2) =
        some q ∧ find_pin_at 3 4 [(⟨7, 3, 4⟩ : SimplePinGeometry)] 2 = q.id) ∧
      (∀ ε : ℚ, 0 < ε →
        find_pin_at (3 + 2 + ε) 4 [(⟨7, 3, 4⟩ : SimplePinGeometry)] 2 = 0)) := by
  refine ⟨List.mem_singleton.mpr rfl, by norm_num, ?_⟩
  exact C3_find_pin_at_containment [⟨7, 3, 4⟩] ⟨7, 3, 4⟩ 3 4 2
    (List.mem_singleton.mpr rfl) rfl rfl (by norm_num)

/-- Pins that all miss are skipped by `find_pin_at`. -/
theorem find_pin_at_append_of_miss (mouse_x mouse_y hit_radius : ℚ)
    (rest : List SimplePinGeometry) :
    ∀ pre : List SimplePinGeometry,
      (∀ q ∈ pre, pin_within mouse_x mouse_y hit_radius q = false) →
      find_pin_at mouse_x mouse_y (pre ++ rest) hit_radius =
        find_pin_at mouse_x mouse_y rest hit_radius := by
  intro pre
  induction pre with
  | nil => simp
  | cons p tail ih =>
      intro hmiss
      have hp : pin_within mouse_x mouse_y hit_radius p = false :=
        hmiss p (List.mem_cons_self p tail)
      have htail : ∀ q ∈ tail, pin_within mouse_x mouse_y hit_radius q = false :=
        fun q hq => hmiss q (List.mem_cons_of_mem p hq)
      simp [find_pin_at, hp, ih htail]

/-- C10: the no-hit sentinel of `find_pin_at` collides with the legitimate
pin id `0`: if a pin with id `0` is within the hit radius and no earlier
pin matches, `find_pin_at` returns `0`, the same value it returns when
every pin misses, so a hit on the id-0 pin is indistinguishable from no
hit. -/
theorem C10_sentinel_collides_with_pin_id_zero
    (px py r : ℚ) (pre post : List SimplePinGeometry)
    (p : SimplePinGeometry) (hid : p.id = 0)
    (hhit : pin_within px py r p = true)
    (hmiss : ∀ q ∈ pre, pin_within px py r q = false) :
    find_pin_at px py (pre ++ p :: post) r = 0 ∧
    find_pin_at px py pre r = 0 := by
  constructor
  · rw [find_pin_at_append_of_miss px py r (p :: post) pre hmiss]
    simp [find_pin_at, hhit, hid]
  · have : find_pin_at px py (pre ++ []) r = find_pin_at px py [] r :=
      find_pin_at_append_of_miss px py r [] pre hmiss
    simpa [find_pin_at] using this

/-- C10 witness: a pin with id 0 at `(50, 50)` is hit with radius 10 at the
query point `(50, 50)` after a missing pin, and the result coincides with
the all-miss result `0`. -/
theorem C10_sentinel_collision_witness :
    find_pin_at 50 50
      [(⟨9, 500, 500⟩ : SimplePinGeometry), ⟨0, 50, 50⟩] 10 = 0 ∧
    find_pin_at 50 50 [(⟨9, 500, 500⟩ : SimplePinGeometry)] 10 = 0 := by
  have hhit : pin_within 50 50 10 (⟨0, 50, 50⟩ : SimplePinGeometry) = true := by
    simp only [pin_within, decide_eq_true_eq]
    norm_num
  have hmiss : ∀ q ∈ [(⟨9, 500, 500⟩ : SimplePinGeometry)],
      pin_within 50 50 10 q = false := by
    intro q hq
    rw [List.mem_singleton] at hq
    subst hq
    simp only [pin_within, decide_eq_false_iff_not, not_le]
    norm_num
  exact C10_sentinel_collides_with_pin_id_zero 50 50 10
    [⟨9, 500, 500⟩] [] ⟨0, 50, 50⟩ rfl hhit hmiss

/-- C4: box-selection boundary policy: a node rectangle exactly touching
the selection box (zero overlap on some side) fails the strict node test
and is excluded, while a link endpoint lying exactly on the boundary of
the closed selection box passes the closed-interval link test and the
link is included. -/
theorem C4_selection_box_boundary_policy
    (sx sy sw sh : ℚ) (n : SimpleNodeGeometry) (l : SimpleLinkGeometry)
    (hn : n.x = sx + sw ∨ n.x + n.width = sx ∨
          n.y = sy + sh ∨ n.y + n.height = sy)
    (hl : (sx ≤ l.start_x ∧ l.start_x ≤ sx + sw ∧ sy ≤ l.start_y ∧
            l.start_y ≤ sy + sh ∧
            (l.start_x = sx ∨ l.start_x = sx + sw ∨
             l.start_y = sy ∨ l.start_y = sy + sh)) ∨
          (sx ≤ l.end_x ∧ l.end_x ≤ sx + sw ∧ sy ≤ l.end_y ∧
            l.end_y ≤ sy + sh ∧
            (l.end_x = sx ∨ l.end_x = sx + sw ∨
             l.end_y = sy ∨ l.end_y = sy + sh))) :
    node_hits_box sx sy sw sh n = false ∧
    nodes_in_selection_box sx sy sw sh [n] = [] ∧
    link_hits_box sx sy sw sh l = true ∧
    links_in_selection_box sx sy sw sh [l] = [l.id] := by
  have hnode : node_hits_box sx sy sw sh n = false := by
    simp only [node_hits_box, Bool.and_eq_false_iff, decide_eq_false_iff_not,
      not_lt]
    rcases hn with h | h | h | h
    · exact Or.inl (Or.inl (Or.inl (le_of_eq h.symm)))
    · exact Or.inl (Or.inl (Or.inr (le_of_eq h)))
    · exact Or.inl (Or.inr (le_of_eq h.symm))
    · exact Or.inr (le_of_eq h)
  have hlink : link_hits_box sx sy sw sh l = true := by
    simp only [link_hits_box, Bool.or_eq_true, Bool.and_eq_true,
      decide_eq_true_eq]
    rcases hl with ⟨h1, h2, h3, h4, _⟩ | ⟨h1, h2, h3, h4, _⟩
    · exact Or.inl ⟨⟨⟨h1, h2⟩, h3⟩, h4⟩
    · exact Or.inr ⟨⟨⟨h1, h2⟩, h3⟩, h4⟩
  refine ⟨hnode, ?_, hlink, ?_⟩
  · simp [nodes_in_selection_box, List.filter, hnode]
  · simp [links_in_selection_box, List.filter, hlink]

/-- C4 witness: the theorem applied to a node at `(100, 0, 100, 100)`
touching the box `(0, 0, 100, 100)` on its right edge, and a link whose
start endpoint `(100, 50)` lies exactly on that boundary. -/
theorem C4_selection_box_boundary_witness :
    nodes_in_selection_box 0 0 100 100
      [(⟨1, 100, 0, 100, 100⟩ : SimpleNodeGeometry)] = [] ∧
    links_in_selection_box 0 0 100 100
      [(⟨4, 100, 50, 300, 50⟩ : SimpleLinkGeometry)] = [4] := by
  have h := C4_selection_box_boundary_policy 0 0 100 100
    ⟨1, 100, 0, 100, 100⟩ ⟨4, 100, 50, 300, 50⟩
    (Or.inl (by norm_num))
    (Or.inl (by norm_num))
  exact ⟨h.2.1, h.2.2.2⟩

/-- While no link has come within the initial `hover_distance` bound, the
`find_link_at` loop state stays at the sentinel. -/
theorem find_link_go_all_miss
    (mouse_x mouse_y hover_distance zoom bezier_min_offset : ℚ)
    (hit_samples : ℕ) :
    ∀ (links : List SimpleLinkGeometry) (i : Int),
      (∀ l ∈ links,
        ¬ (0 < hover_distance ∧
          linkDistSq mouse_x mouse_y l zoom bezier_min_offset hit_samples <
            hover_distance * hover_distance)) →
      find_link_go mouse_x mouse_y hover_distance zoom bezier_min_offset
        hit_samples links (i, none) = (i, none) := by
  intro links
  induction links with
  | nil => intro i _; rfl
  | cons l rest ih =>
      intro i hmiss
      have hl := hmiss l (List.mem_cons_self l rest)
      have hcond : (decide (0 < hover_distance) &&
          decide (linkDistSq mouse_x mouse_y l zoom bezier_min_offset
            hit_samples < hover_distance * hover_distance)) = false := by
        rw [Bool.and_eq_false_iff]
        by_cases h0 : 0 < hover_distance
        · right
          simp only [decide_eq_false_iff_not]
          exact fun hd => hl ⟨h0, hd⟩
        · left
          simpa using h0
      have hrest : ∀ l ∈ rest,
          ¬ (0 < hover_distance ∧
            linkDistSq mouse_x mouse_y l zoom bezier_min_offset hit_samples <
              hover_distance * hover_distance) :=
        fun q hq => hmiss q (List.mem_cons_of_mem l hq)
      simp only [find_link_go, hcond, if_false, Bool.false_eq_true]
      exact ih i hrest

/-- Once a best squared distance is held, links that are not strictly
closer leave the `find_link_at` loop state unchanged. -/
theorem find_link_go_no_better
    (mouse_x mouse_y hover_distance zoom bezier_min_offset : ℚ)
    (hit_samples : ℕ) :
    ∀ (links : List SimpleLinkGeometry) (i : Int) (b : ℚ),
      (∀ l ∈ links,
        ¬ linkDistSq mouse_x mouse_y l zoom bezier_min_offset hit_samples
            < b) →
      find_link_go mouse_x mouse_y hover_distance zoom bezier_min_offset
        hit_samples links (i, some b) = (i, some b) := by
  intro links
  induction links with
  | nil => intro i b _; rfl
  | cons l rest ih =>
      intro i b hmiss
      have hl := hmiss l (List.mem_cons_self l rest)
      have hcond : decide (linkDistSq mouse_x mouse_y l zoom
          bezier_min_offset hit_samples < b) = false := by
        simpa using hl
      have hrest : ∀ l ∈ rest,
          ¬ linkDistSq mouse_x mouse_y l zoom bezier_min_offset hit_samples
              < b :=
        fun q hq => hmiss q (List.mem_cons_of_mem l hq)
      simp only [find_link_go, hcond, if_false, Bool.false_eq_true]
      exact ih i b hrest

/-- C5: `find_link_at` keeps a best bound initialised to `hover_distance`
and replaces it only on a strictly smaller sampled distance: the empty
list yields the sentinel `-1`; when no link comes below `hover_distance`
(in the square-root encoding: no link has `0 < hover` and squared distance
below `hover²`) the sentinel `-1` is returned; and when the first link is
within `hover_distance` and no later link is strictly closer (in
particular on an exact distance tie) the first link id is returned. -/
theorem C5_find_link_at_strict_best
    (mouse_x mouse_y hover_distance zoom bezier_min_offset : ℚ)
    (hit_samples : ℕ) (links rest : List SimpleLinkGeometry)
    (l₁ : SimpleLinkGeometry) :
    (find_link_at mouse_x mouse_y [] hover_distance zoom bezier_min_offset
      hit_samples = -1) ∧
    ((∀ l ∈ links,
        ¬ (0 < hover_distance ∧
          linkDistSq mouse_x mouse_y l zoom bezier_min_offset hit_samples <
            hover_distance * hover_distance)) →
      find_link_at mouse_x mouse_y links hover_distance zoom
        bezier_min_offset hit_samples = -1) ∧
    ((0 < hover_distance ∧
        linkDistSq mouse_x mouse_y l₁ zoom bezier_min_offset hit_samples <
          hover_distance * hover_distance) →
      (∀ l ∈ rest,
        ¬ linkDistSq mouse_x mouse_y l zoom bezier_min_offset hit_samples <
          linkDistSq mouse_x mouse_y l₁ zoom bezier_min_offset hit_samples) →
      find_link_at mouse_x mouse_y (l₁ :: rest) hover_distance zoom
        bezier_min_offset hit_samples = l₁.id) := by
  refine ⟨rfl, ?_, ?_⟩
  · intro hmiss
    unfold find_link_at
    rw [find_link_go_all_miss mouse_x mouse_y hover_distance zoom
      bezier_min_offset hit_samples links (-1) hmiss]
  · intro hhit hrest
    unfold find_link_at
    have hcond : (decide (0 < hover_distance) &&
        decide (linkDistSq mouse_x mouse_y l₁ zoom bezier_min_offset
          hit_samples < hover_distance * hover_distance)) = true := by
      rw [Bool.and_eq_true]
      exact ⟨decide_eq_true hhit.1, decide_eq_true hhit.2⟩
    simp only [find_link_go, hcond, if_true]
    rw [find_link_go_no_better mouse_x mouse_y hover_distance zoom
      bezier_min_offset hit_samples rest l₁.id _ hrest]

/-- C5 witness: the theorem applied with the mouse at the origin, hover
distance 10 and one sample: a single link along `y = 100` (squared
distance 10000) yields the sentinel `-1`, and two identical links along
`y = 0` (an exact distance tie at 0) yield the id `5` of the first. -/
theorem C5_find_link_at_witness :
    find_link_at 0 0 [(⟨7, 0, 100, 100, 100⟩ : SimpleLinkGeometry)]
      10 1 50 1 = -1 ∧
    find_link_at 0 0 [(⟨5, 0, 0, 100, 0⟩ : SimpleLinkGeometry),
      ⟨6, 0, 0, 100, 0⟩] 10 1 50 1 = 5 := by
  have hd7 : linkDistSq 0 0 ⟨7, 0, 100, 100, 100⟩ 1 50 1 = 10000 := by
    norm_num [linkDistSq, distance_to_bezier_sq, CubicBezier.from_endpoints,
      CubicBezier.eval, distance_to_line_segment_sq, ratClamp, f32EPSILON,
      f32MAX, List.range, List.range.loop]
  have hd5 : linkDistSq 0 0 ⟨5, 0, 0, 100, 0⟩ 1 50 1 = 0 := by
    norm_num [linkDistSq, distance_to_bezier_sq, CubicBezier.from_endpoints,
      CubicBezier.eval, distance_to_line_segment_sq, ratClamp, f32EPSILON,
      f32MAX, List.range, List.range.loop]
  have hd6 : linkDistSq 0 0 ⟨6, 0, 0, 100, 0⟩ 1 50 1 = 0 := hd5
  constructor
  · refine (C5_find_link_at_strict_best 0 0 10 1 50 1
      [⟨7, 0, 100, 100, 100⟩] [] ⟨7, 0, 100, 100, 100⟩).2.1 ?_
    intro l hl
    rw [List.mem_singleton] at hl
    subst hl
    rw [hd7]
    norm_num
  · refine (C5_find_link_at_strict_best 0 0 10 1 50 1 []
      [⟨6, 0, 0, 100, 0⟩] ⟨5, 0, 0, 100, 0⟩).2.2 ?_ ?_
    · rw [hd5]; norm_num
    · intro l hl
      rw [List.mem_singleton] at hl
      subst hl
      rw [hd6, hd5]
      norm_num

/-- The `M ... C ...` SVG command for a cubic bezier, as formatted by
`path.rs` (shared shape of `generate_bezier_path` and
`generate_partial_bezier_path`). -/
def bezier_path_of (c : CubicBezier) : String :=
  "M " ++ fmtQ c.p0.1 ++ " " ++ fmtQ c.p0.2 ++ " C " ++
    fmtQ c.p1.1 ++ " " ++ fmtQ c.p1.2 ++ " " ++
    fmtQ c.p2.1 ++ " " ++ fmtQ c.p2.2 ++ " " ++
    fmtQ c.p3.1 ++ " " ++ fmtQ c.p3.2

/-- The de Casteljau left-subdivision control points computed by
`generate_partial_bezier_path`: `P0, Q0, R0, S` at parameter `t`. -/
def casteljau_left (c : CubicBezier) (t : ℚ) : CubicBezier :=
  let q0 := lerp_point c.p0 c.p1 t
  let q1 := lerp_point c.p1 c.p2 t
  let q2 := lerp_point c.p2 c.p3 t
  let r0 := lerp_point q0 q1 t
  let r1 := lerp_point q1 q2 t
  let s := lerp_point r0 r1 t
  ⟨c.p0, q0, r0, s⟩

/-- The left-subdivision control points parametrise exactly the sub-curve
of the original bezier from parameter 0 to `t`. -/
theorem casteljau_left_eval (c : CubicBezier) (t u : ℚ) :
    (casteljau_left c t).eval u = c.eval (t * u) := by
  unfold casteljau_left lerp_point CubicBezier.eval
  dsimp only
  apply Prod.ext <;> ring

/-- C7: `generate_partial_bezier_path` with `progress ≤ 0` returns the
zero-length path at the start point; with `progress ≥ 1` it returns the
very string `generate_bezier_path` returns on the same arguments; and for
`0 < progress < 1` with non-degenerate distance it returns the `M ... C`
command of the de Casteljau left subdivision at `t = progress` of the full
control polygon, whose curve is exactly the sub-curve of the full bezier
from parameter 0 to `progress`. -/
theorem C7_generate_partial_bezier_path_spec
    (start_x start_y end_x end_y zoom min_offset progress : ℚ) :
    (progress ≤ 0 →
      generate_partial_bezier_path start_x start_y end_x end_y zoom
          min_offset progress =
        "M " ++ fmtQ start_x ++ " " ++ fmtQ start_y ++ " L " ++
          fmtQ start_x ++ " " ++ fmtQ start_y) ∧
    (1 ≤ progress →
      generate_partial_bezier_path start_x start_y end_x end_y zoom
          min_offset progress =
        generate_bezier_path start_x start_y end_x end_y zoom min_offset) ∧
    (0 < progress → progress < 1 →
      10 * zoom * (10 * zoom) ≤
        (end_x - start_x) * (end_x - start_x) +
          (end_y - start_y) * (end_y - start_y) →
      (generate_partial_bezier_path start_x start_y end_x end_y zoom
          min_offset progress =
        bezier_path_of (casteljau_left
          (CubicBezier.from_endpoints start_x start_y end_x end_y zoom
            min_offset) progress)) ∧
      ∀ u : ℚ,
        (casteljau_left (CubicBezier.from_endpoints start_x start_y end_x
          end_y zoom min_offset) progress).eval u =
        (CubicBezier.from_endpoints start_x start_y end_x end_y zoom
          min_offset).eval (progress * u)) := by
  refine ⟨?_, ?_, ?_⟩
  · intro hp
    have ht : ratClamp progress 0 1 ≤ 0 := by
      unfold ratClamp
      split_ifs with h1 h2 <;> linarith
    unfold generate_partial_bezier_path
    rw [if_pos ht]
  · intro hp
    have ht1 : 1 ≤ ratClamp progress 0 1 := by
      unfold ratClamp
      split_ifs with h1 h2 <;> linarith
    have ht0 : ¬ ratClamp progress 0 1 ≤ 0 := by linarith
    unfold generate_partial_bezier_path
    rw [if_neg ht0, if_pos ht1]
  · intro h0 h1 hd
    have ht : ratClamp progress 0 1 = progress := by
      unfold ratClamp
      rw [if_neg (not_lt.mpr h0.le), if_neg (not_lt.mpr h1.le)]
    have hnd : ¬ ((end_x - start_x) * (end_x - start_x) +
        (end_y - start_y) * (end_y - start_y) <
          10 * zoom * (10 * zoom)) := not_lt.mpr hd
    constructor
    · unfold generate_partial_bezier_path
      rw [ht, if_neg (not_le.mpr h0), if_neg (not_le.mpr h1)]
      unfold CubicBezier.from_endpoints
      rw [if_neg hnd, if_neg hnd]
      unfold bezier_path_of casteljau_left
      rfl
    · intro u
      exact casteljau_left_eval _ progress u

/-- C7 witness: the theorem applied to the curve from `(0,0)` to `(160,0)`
at zoom 1, minimum offset 50 and progress `1/2`, where the partial path
evaluates to `M 0 0 C 40 0 60 0 80 0`. -/
theorem C7_generate_partial_bezier_path_witness :
    (0 : ℚ) < 1/2 ∧ (1/2 : ℚ) < 1 ∧
    ((10 : ℚ) * 1 * (10 * 1) ≤
      (160 - 0) * (160 - 0) + (0 - 0) * (0 - 0)) ∧
    generate_partial_bezier_path 0 0 160 0 1 50 (1/2) =
      "M 0 0 C 40 0 60 0 80 0" := by
  have h := (C7_generate_partial_bezier_path_spec 0 0 160 0 1 50
    (1/2)).2.2 (by norm_num) (by norm_num) (by norm_num)
  refine ⟨by norm_num, by norm_num, by norm_num, ?_⟩
  rw [h.1]
  norm_num [bezier_path_of, casteljau_left, CubicBezier.from_endpoints,
    lerp_point, fmtQ]
  rfl

/-- C1 (amended): for every non-positive zoom, the controller operations
that clamp through `safe_zoom` — `handle_node_rect`, `find_pin_at_screen`,
`find_link_at_screen`, `nodes_in_selection_box_screen` and
`links_in_selection_box_screen` — produce exactly the same result as with
zoom `1` and the same pan and inputs.  `compute_link_path` is not among
them: it uses the raw zoom (see the counterexample). -/
theorem C1_safe_zoom_operations_invariant
    (s : ViewportState) (cache : GeometryCache) (hz : s.zoom ≤ 0)
    (id : Int) (x y w h mx my r hover moff sx sy sw sh : ℚ) (n : ℕ) :
    ctrl_handle_node_rect s cache id x y w h =
      ctrl_handle_node_rect {s with zoom := 1} cache id x y w h ∧
    ctrl_find_pin_at_screen s cache mx my r =
      ctrl_find_pin_at_screen {s with zoom := 1} cache mx my r ∧
    ctrl_find_link_at_screen s cache mx my hover moff n =
      ctrl_find_link_at_screen {s with zoom := 1} cache mx my hover moff n ∧
    ctrl_nodes_in_selection_box_screen s cache sx sy sw sh =
      ctrl_nodes_in_selection_box_screen {s with zoom := 1} cache sx sy sw
        sh ∧
    ctrl_links_in_selection_box_screen s cache sx sy sw sh =
      ctrl_links_in_selection_box_screen {s with zoom := 1} cache sx sy sw
        sh := by
  have h1 : s.safe_zoom = 1 := by
    unfold ViewportState.safe_zoom
    rw [if_neg (not_lt.mpr hz)]
  have h2 : ({s with zoom := 1} : ViewportState).safe_zoom = 1 := by
    simp [ViewportState.safe_zoom]
  refine ⟨?_, ?_, ?_, ?_, ?_⟩
  · simp only [ctrl_handle_node_rect, h1, h2]
  · simp only [ctrl_find_pin_at_screen, h1, h2]
  · simp only [ctrl_find_link_at_screen, ctrl_link_geometries, h1, h2]
  · simp only [ctrl_nodes_in_selection_box_screen, h1, h2]
  · simp only [ctrl_links_in_selection_box_screen, ctrl_link_geometries,
      h1, h2]

/-- C1 counterexample: `compute_link_path` does not behave at zoom `≤ 0`
as at zoom `1`: on the scenario cache with zoom `-1` (same pan `0`) it
produces `M -100 -25 C -50 -25 -250 -125 -200 -125`, not the zoom-1 path
`M 100 25 C 150 25 150 125 200 125`, refuting the claim for the listed
operation `compute_link_path`. -/
theorem C1_compute_link_path_not_safe_zoom :
    viewportNeg.zoom ≤ 0 ∧
    viewportOne = {viewportNeg with zoom := 1} ∧
    ctrl_compute_link_path viewportNeg specCache 1001 2001 ≠
      ctrl_compute_link_path viewportOne specCache 1001 2001 := by
  refine ⟨by norm_num [viewportNeg], rfl, ?_⟩
  show ((specCache.compute_link_path_screen 1001 2001 (-1) 0 0 50).getD "")
    ≠ _
  have hneg : specCache.compute_link_path_screen 1001 2001 (-1) 0 0 50 =
      some (generate_bezier_path ((0 + 100) * (-1) + 0) ((0 + 25) * (-1) + 0)
        ((200 + 0) * (-1) + 0) ((100 + 25) * (-1) + 0) (-1) 50) := rfl
  have hone : specCache.compute_link_path_screen 1001 2001 1 0 0 50 =
      some (generate_bezier_path ((0 + 100) * 1 + 0) ((0 + 25) * 1 + 0)
        ((200 + 0) * 1 + 0) ((100 + 25) * 1 + 0) 1 50) := rfl
  rw [show ctrl_compute_link_path viewportOne specCache 1001 2001 =
    ((specCache.compute_link_path_screen 1001 2001 1 0 0 50).getD "")
    from rfl, hneg, hone]
  norm_num [generate_bezier_path, fmtQ]
  decide

/-- C1 witness: the amended theorem applied at the zoom `-1` viewport and
the scenario cache; the find-pin facade agrees with its zoom-1 run. -/
theorem C1_safe_zoom_operations_witness :
    viewportNeg.zoom ≤ 0 ∧
    ctrl_find_pin_at_screen viewportNeg specCache 5 6 7 =
      ctrl_find_pin_at_screen {viewportNeg with zoom := 1} specCache
        5 6 7 := by
  have hz : viewportNeg.zoom ≤ 0 := by norm_num [viewportNeg]
  exact ⟨hz, (C1_safe_zoom_operations_invariant viewportNeg specCache hz
    0 0 0 0 0 5 6 7 0 0 0 0 0 0 0).2.1⟩
